import Mathlib

/-!
# URL shortener: key allocation, record store and redirect

A shallow embedding of `src/main.go` (handlers `shortenURL`, `redirectURL` and
the helper `generateShortKey`) together with the properties of the mapping
service.

Modelling conventions

* `Time` is an instant, counted in nanoseconds from the Unix epoch.  Go's
  `time.Time{}` (the zero value of a declared, unassigned variable) is midnight
  of 1 January of year 1, UTC.  `AddDate(0, 0, 7)` is taken in a location
  without clock changes (UTC), where seven calendar days are `7 * 24` hours.
* The bucket `"urls"` of the bbolt database is a finite map from keys to
  records, kept as an association list.  `encoding/json` applied to `URLData`
  is taken as an exact round trip, so the bucket holds the records themselves;
  the failure exits of the storage engine and of `json.Marshal` (HTTP 500) are
  outside the model.
* `math/rand` is a stream of raw draws `rnd : Nat → Nat`; `rand.Intn n` on the
  `i`-th draw is `rnd i % n`.
* A handler returns the one reply it writes (`http.Error`, `http.Redirect` or
  `fmt.Fprintf`) and the bucket after the call.
* `Clicks` is a Go `int` of 64 bits: an integer from `minInt` to `maxInt`, and
  `Clicks++` wraps from `maxInt` to `minInt` (`wrapInt`).
-/

namespace URLShortener

/-! ## Time -/

/-- An instant: nanoseconds from 1970-01-01T00:00:00Z. -/
abbrev Time := Int

/-- Nanoseconds in one day. -/
def nanosPerDay : Int := 86400 * 1000000000

/-- Go's `t.After(u)`: `t` is strictly later than `u`. -/
def Time.After (t u : Time) : Bool := decide (u < t)

/-- Go's `t.AddDate(0, 0, days)` in a location without clock changes. -/
def Time.AddDays (t : Time) (days : Int) : Time := t + days * nanosPerDay

/-- Leap years of the proleptic Gregorian calendar. -/
def isLeap (year : Nat) : Bool :=
  year % 4 == 0 && (year % 100 != 0 || year % 400 == 0)

/-- Go's `daysIn(month, year)`; `month` is `1 .. 12`. -/
def daysIn (month year : Nat) : Nat :=
  if month == 2 then (if isLeap year then 29 else 28)
  else if month == 4 || month == 6 || month == 9 || month == 11 then 30
  else 31

/-- Days from 1970-01-01 to the given civil date (proleptic Gregorian). -/
def daysFromCivil (year month day : Nat) : Int :=
  let y : Int := if month ≤ 2 then (year : Int) - 1 else (year : Int)
  let era : Int := y / 400
  let yoe : Int := y - era * 400
  let mp : Int := ((month : Int) + 9) % 12
  let doy : Int := (153 * mp + 2) / 5 + (day : Int) - 1
  let doe : Int := yoe * 365 + yoe / 4 - yoe / 100 + doy
  era * 146097 + doe - 719468

/-- Go's `time.Date(year, month, day, 0, 0, 0, 0, time.UTC)`. -/
def dateUTC (year month day : Nat) : Time := daysFromCivil year month day * nanosPerDay

/-- Go's `time.Time{}`: 0001-01-01T00:00:00Z. -/
def zeroTime : Time := dateUTC 1 1 1

/-- Go's `isDigit`. -/
def isDigit (c : Char) : Bool := decide ('0'.toNat ≤ c.toNat) && decide (c.toNat ≤ '9'.toNat)

/-- Value of a decimal digit. -/
def digitVal (c : Char) : Nat := c.toNat - '0'.toNat

/-- Go's `time.Parse("2006-01-02", value)`: four digits of year, a hyphen, two
digits of month in `1 .. 12`, a hyphen, two digits of day within the month, and
nothing after; `none` is the parse error. -/
def parseDate (value : String) : Option Time :=
  match value.toList with
  | [y1, y2, y3, y4, s1, m1, m2, s2, d1, d2] =>
    if isDigit y1 && isDigit y2 && isDigit y3 && isDigit y4 && s1 == '-'
        && isDigit m1 && isDigit m2 && s2 == '-' && isDigit d1 && isDigit d2 then
      let year := digitVal y1 * 1000 + digitVal y2 * 100 + digitVal y3 * 10 + digitVal y4
      let month := digitVal m1 * 10 + digitVal m2
      let day := digitVal d1 * 10 + digitVal d2
      if month ≤ 0 || 12 < month then none
      else if day < 1 || day > daysIn month year then none
      else some (dateUTC year month day)
    else none
  | _ => none

/-! ## Go integers -/

/-- Go's `math.MaxInt` for the 64-bit `int`. -/
def maxInt : Int := 9223372036854775807

/-- Go's `math.MinInt` for the 64-bit `int`. -/
def minInt : Int := -9223372036854775808

/-- The `int` that Go arithmetic leaves for the exact result `x`: `x` wrapped
into `minInt .. maxInt` modulo `2 ^ 64`. -/
def wrapInt (x : Int) : Int :=
  (x + 9223372036854775808) % 18446744073709551616 - 9223372036854775808

/-! ## Records and the bucket -/

/-- The stored record: original URL, expiration time, click count. -/
structure URLData where
  OriginalURL : String
  ExpiresAt : Time
  Clicks : Int
  deriving DecidableEq, Repr

/-- The bucket `"urls"`: short key to record. -/
abbrev Bucket := List (String × URLData)

/-- The bucket's `Get`: the record under `key`, if there is one. -/
def Bucket.Get : Bucket → String → Option URLData
  | [], _ => none
  | (k, v) :: rest, key => if k = key then some v else Bucket.Get rest key

/-- The bucket's `Put`: sets the record under `key`, replacing one that is there. -/
def Bucket.Put : Bucket → String → URLData → Bucket
  | [], key, value => [(key, value)]
  | (k, v) :: rest, key, value =>
    if k = key then (key, value) :: rest else (k, v) :: Bucket.Put rest key value

/-! ## Key generation -/

/-- Base62 characters for short key generation. -/
def base62Chars : String := "abcdefghijklmnopqrstuvwxyzABCDEFGHIJKLMNOPQRSTUVWXYZ0123456789"

/-- The symbol `base62Chars[rand.Intn(len(base62Chars))]` for one raw draw. -/
def base62At (draw : Nat) : Char :=
  base62Chars.toList.getD (draw % base62Chars.length) 'a'

/-- Go's `generateShortKey`: six symbols, one per draw. -/
def generateShortKey (rnd : Nat → Nat) : String :=
  String.mk ((List.range 6).map (fun i => base62At (rnd i)))

/-! ## Handlers -/

/-- The reply a handler writes. -/
inductive Response where
  /-- The call `http.Error(w, msg, code)`. -/
  | error (msg : String) (code : Nat)
  /-- The call `http.Redirect(w, r, url, code)`. -/
  | redirect (url : String) (code : Nat)
  /-- The call `fmt.Fprintf(w, ...)` with the formatted text, status 200. -/
  | written (body : String)
  deriving DecidableEq, Repr

/-- The request fields read by `shortenURL`. -/
structure ShortenRequest where
  Method : String
  url : String
  custom_key : String
  expiration : String
  deriving DecidableEq, Repr

/-- Text written on success for the key `customKey`. -/
def shortURL (customKey : String) : String := "Short URL: http://localhost:8080/" ++ customKey

/-- The tail of `shortenURL` from the expiration parse on, with the key settled.
The parsed date is bound to a variable of the inner block, so the record is
built from the outer `expiresAt`, still `time.Time{}` on that branch. -/
def shortenStore (db : Bucket) (now : Time) (r : ShortenRequest) (customKey : String) :
    Response × Bucket :=
  if r.expiration ≠ "" then
    match parseDate r.expiration with
    | none => (Response.error "Invalid date format (YYYY-MM-DD)" 400, db)
    | some _ =>
      let urlData : URLData := { OriginalURL := r.url, ExpiresAt := zeroTime, Clicks := 0 }
      (Response.written (shortURL customKey), db.Put customKey urlData)
  else
    let urlData : URLData := { OriginalURL := r.url, ExpiresAt := now.AddDays 7, Clicks := 0 }
    (Response.written (shortURL customKey), db.Put customKey urlData)

/-- The handler `shortenURL`. -/
def shortenURL (db : Bucket) (rnd : Nat → Nat) (now : Time) (r : ShortenRequest) :
    Response × Bucket :=
  if r.Method ≠ "POST" then (Response.error "Invalid request method" 405, db)
  else if r.url = "" then (Response.error "URL is required" 400, db)
  else if r.custom_key = "" then shortenStore db now r (generateShortKey rnd)
  else if (db.Get r.custom_key).isSome then (Response.error "Custom key already exists" 400, db)
  else shortenStore db now r r.custom_key

/-- First transaction of `redirectURL` (`db.View`): reads the record. -/
def redirectView (db : Bucket) (shortKey : String) : Option URLData := db.Get shortKey

/-- Rest of `redirectURL` after the read: the expiration check, then the second
transaction (`db.Update`), which writes the record read before with `Clicks`
raised by one as a Go `int` (`urlData.Clicks++`). -/
def redirectUpdate (db : Bucket) (now : Time) (shortKey : String) (urlData : URLData) :
    Response × Bucket :=
  if now.After urlData.ExpiresAt then (Response.error "URL has expired" 410, db)
  else
    let urlData1 : URLData := { urlData with Clicks := wrapInt (urlData.Clicks + 1) }
    (Response.redirect urlData1.OriginalURL 302, db.Put shortKey urlData1)

/-- The handler `redirectURL`; `shortKey` is `r.URL.Path[1:]`. -/
def redirectURL (db : Bucket) (now : Time) (shortKey : String) : Response × Bucket :=
  match redirectView db shortKey with
  | none => (Response.error "URL not found" 404, db)
  | some urlData => redirectUpdate db now shortKey urlData

/-! ## Redirects running side by side

Each request runs in its own goroutine.  The transactions of bbolt are
serialised, so a run of several `redirectURL` calls is an interleaving of their
transactions: the read (`db.View`), and later the write (`db.Update`) of the
record that was read. -/

/-- Where one `redirectURL` call stands. -/
inductive Goroutine where
  /-- Nothing done yet. -/
  | start
  /-- The read is over and returned `urlData`. -/
  | viewed (urlData : URLData)
  /-- The handler returned after writing `resp`. -/
  | finished (resp : Response)
  deriving DecidableEq, Repr

/-- One transaction of a `redirectURL` call, with the code up to the next one. -/
def Goroutine.step (db : Bucket) (now : Time) (shortKey : String) :
    Goroutine → Goroutine × Bucket
  | Goroutine.start =>
    match redirectView db shortKey with
    | none => (Goroutine.finished (Response.error "URL not found" 404), db)
    | some urlData => (Goroutine.viewed urlData, db)
  | Goroutine.viewed urlData =>
    ((Goroutine.finished (redirectUpdate db now shortKey urlData).1),
      (redirectUpdate db now shortKey urlData).2)
  | Goroutine.finished resp => (Goroutine.finished resp, db)

/-- Runs a schedule: each entry names the goroutine that moves next and the
clock it sees. -/
def runSchedule (shortKey : String) :
    List (Nat × Time) → List Goroutine × Bucket → List Goroutine × Bucket
  | [], st => st
  | (i, now) :: rest, (gs, db) =>
    match gs.get? i with
    | none => runSchedule shortKey rest (gs, db)
    | some g =>
      runSchedule shortKey rest
        (gs.set i (Goroutine.step db now shortKey g).1, (Goroutine.step db now shortKey g).2)

/-- Runs `n` calls of `redirectURL` one after the other. -/
def redirectTimes (now : Time) (shortKey : String) : Nat → Bucket → Bucket
  | 0, db => db
  | n + 1, db => redirectTimes now shortKey n (redirectURL db now shortKey).2

/-! ## Sample data -/

/-- A sample current time: 2026-11-01T00:00:00Z. -/
def sampleNow : Time := dateUTC 2026 11 1

/-- A sample record that expires on 2099-01-01 and was followed five times. -/
def sampleRecord : URLData :=
  { OriginalURL := "https://example.com/old", ExpiresAt := dateUTC 2099 1 1, Clicks := 5 }

/-- A bucket with two records; the first sits under the key that a stream of
zero draws generates. -/
def sampleBucket : Bucket :=
  [("aaaaaa", sampleRecord),
   ("promo", { OriginalURL := "https://example.com/promo", ExpiresAt := dateUTC 2020 1 1,
               Clicks := 3 })]

/-- A record that is not expired and whose counter holds the largest `int`. -/
def sampleFullRecord : URLData :=
  { OriginalURL := "https://example.com/busy", ExpiresAt := dateUTC 2099 1 1,
    Clicks := 9223372036854775807 }

/-- A bucket with the full record alone. -/
def sampleFullBucket : Bucket := [("busy", sampleFullRecord)]

/-- A request with a free custom key and no expiration. -/
def sampleFreshRequest : ShortenRequest :=
  { Method := "POST", url := "https://example.com/new", custom_key := "fresh",
    expiration := "" }

/-- A request with no custom key and an expiration that is not a date. -/
def sampleBadDateRequest : ShortenRequest :=
  { Method := "POST", url := "https://example.com/new", custom_key := "",
    expiration := "not-a-date" }

/-- A request with a taken custom key and an expiration that is not a date. -/
def sampleTakenBadDateRequest : ShortenRequest :=
  { Method := "POST", url := "https://example.com/new", custom_key := "promo",
    expiration := "not-a-date" }

/-- A request with no custom key and the expiration 2099-01-01. -/
def sampleDatedRequest : ShortenRequest :=
  { Method := "POST", url := "https://example.com/new", custom_key := "",
    expiration := "2099-01-01" }

/-- A request with no custom key and no expiration. -/
def samplePlainRequest : ShortenRequest :=
  { Method := "POST", url := "https://example.com/new", custom_key := "",
    expiration := "" }

/-! ## The bucket as a map -/

theorem Bucket.Get_Put_same (db : Bucket) (key : String) (value : URLData) :
    (db.Put key value).Get key = some value := by
  induction db with
  | nil => simp [Bucket.Put, Bucket.Get]
  | cons kv rest ih =>
    obtain ⟨k, v⟩ := kv
    by_cases h : k = key
    · simp [Bucket.Put, Bucket.Get, h]
    · simp [Bucket.Put, Bucket.Get, h, ih]

theorem Bucket.Get_Put_other (db : Bucket) (key other : String) (value : URLData)
    (h : other ≠ key) : (db.Put key value).Get other = db.Get other := by
  induction db with
  | nil =>
    have h1 : ¬ key = other := fun e => h e.symm
    simp [Bucket.Put, Bucket.Get, h1]
  | cons kv rest ih =>
    obtain ⟨k, v⟩ := kv
    by_cases hk : k = key
    · have h1 : ¬ key = other := fun e => h e.symm
      simp [Bucket.Put, Bucket.Get, hk, h1]
    · by_cases ho : k = other
      · subst ho
        simp [Bucket.Put, Bucket.Get, hk]
      · simp [Bucket.Put, Bucket.Get, hk, ho, ih]

/-! ## Keys -/

theorem base62_card : base62Chars.length = 62 ∧ base62Chars.toList.Nodup := by decide

theorem base62_alnum : ∀ c ∈ base62Chars.toList, c.isAlphanum = true := by decide

theorem base62At_mem (draw : Nat) : base62At draw ∈ base62Chars.toList := by
  have hlt : draw % base62Chars.length < base62Chars.toList.length :=
    Nat.mod_lt _ (by decide)
  unfold base62At
  rw [List.getD_eq_getElem _ _ hlt]
  exact List.getElem_mem _

theorem generateShortKey_length (rnd : Nat → Nat) : (generateShortKey rnd).length = 6 := by
  simp [generateShortKey, String.length]

theorem generateShortKey_mem (rnd : Nat → Nat) :
    ∀ c ∈ (generateShortKey rnd).toList, c ∈ base62Chars.toList := by
  intro c hc
  simp only [generateShortKey, String.toList, List.mem_map] at hc
  obtain ⟨i, _, rfl⟩ := hc
  exact base62At_mem _

theorem generateShortKey_ne_empty (rnd : Nat → Nat) : generateShortKey rnd ≠ "" := by
  intro h
  have h6 := generateShortKey_length rnd
  rw [h] at h6
  exact absurd h6 (by decide)

theorem shortURL_injective (a b : String) (h : shortURL a = shortURL b) : a = b := by
  have hd := congrArg String.data h
  simp only [shortURL, String.data_append] at hd
  exact String.ext (List.append_cancel_left hd)

/-! ## Go integers: the increment -/

theorem wrapInt_succ (c : Int) (hlo : minInt ≤ c) (hhi : c < maxInt) :
    wrapInt (c + 1) = c + 1 := by
  unfold wrapInt
  unfold minInt at hlo
  unfold maxInt at hhi
  omega

theorem wrapInt_succ_ne (c : Int) : wrapInt (c + 1) ≠ c := by
  unfold wrapInt
  omega

theorem wrapInt_succ_maxInt : wrapInt (maxInt + 1) = minInt := by decide

theorem wrapInt_range (x : Int) : minInt ≤ wrapInt x ∧ wrapInt x ≤ maxInt := by
  unfold wrapInt minInt maxInt
  omega

/-! ## Handler lemmas -/

theorem Time.After_eq_false (t u : Time) (h : t ≤ u) : Time.After t u = false := by
  simp [Time.After, h]

theorem Time.After_eq_true (t u : Time) (h : u < t) : Time.After t u = true := by
  simp [Time.After, h]

theorem redirectURL_live (db : Bucket) (now : Time) (shortKey : String) (d : URLData)
    (hget : db.Get shortKey = some d) (hlive : now ≤ d.ExpiresAt) :
    redirectURL db now shortKey =
      (Response.redirect d.OriginalURL 302,
        db.Put shortKey { d with Clicks := wrapInt (d.Clicks + 1) }) := by
  simp [redirectURL, redirectView, redirectUpdate, hget, Time.After_eq_false _ _ hlive]

theorem redirectURL_expired (db : Bucket) (now : Time) (shortKey : String) (d : URLData)
    (hget : db.Get shortKey = some d) (hexp : d.ExpiresAt < now) :
    redirectURL db now shortKey = (Response.error "URL has expired" 410, db) := by
  simp [redirectURL, redirectView, redirectUpdate, hget, Time.After_eq_true _ _ hexp]

theorem shortenStore_default (db : Bucket) (now : Time) (r : ShortenRequest)
    (customKey : String) (hexp : r.expiration = "") :
    shortenStore db now r customKey =
      (Response.written (shortURL customKey),
        db.Put customKey { OriginalURL := r.url, ExpiresAt := now.AddDays 7, Clicks := 0 }) := by
  simp [shortenStore, hexp]

theorem shortenStore_parsed (db : Bucket) (now : Time) (r : ShortenRequest)
    (customKey : String) (t : Time) (hne : r.expiration ≠ "")
    (hparse : parseDate r.expiration = some t) :
    shortenStore db now r customKey =
      (Response.written (shortURL customKey),
        db.Put customKey { OriginalURL := r.url, ExpiresAt := zeroTime, Clicks := 0 }) := by
  simp [shortenStore, hne, hparse]

theorem shortenStore_bad_date (db : Bucket) (now : Time) (r : ShortenRequest)
    (customKey : String) (hne : r.expiration ≠ "") (hparse : parseDate r.expiration = none) :
    shortenStore db now r customKey =
      (Response.error "Invalid date format (YYYY-MM-DD)" 400, db) := by
  simp [shortenStore, hne, hparse]

/-! ## Redirect -/

/-- C2, as stated, fails: for a record that is not expired and whose clicks is
the largest `int`, the redirect succeeds but the stored clicks is not the old
value plus one; `Clicks++` wraps to the smallest `int`. -/
theorem redirect_at_max_clicks_wraps :
    ¬ (∀ (db : Bucket) (now : Time) (shortKey : String) (d : URLData),
        db.Get shortKey = some d → now ≤ d.ExpiresAt →
        (redirectURL db now shortKey).1 = Response.redirect d.OriginalURL 302 ∧
        (redirectURL db now shortKey).2.Get shortKey =
          some { OriginalURL := d.OriginalURL, ExpiresAt := d.ExpiresAt,
                 Clicks := d.Clicks + 1 } ∧
        ∀ other : String, other ≠ shortKey →
          (redirectURL db now shortKey).2.Get other = db.Get other) := by
  intro h
  have h1 := (h sampleFullBucket sampleNow "busy" sampleFullRecord (by decide) (by decide)).2.1
  revert h1
  decide

/-- C2, amended: a redirect on a key whose record is not expired at the current
time and whose clicks is an `int` below the largest one succeeds with the
record's original URL, raises that record's clicks by exactly one, keeps its
original URL and expiration, and leaves the records of all other keys as they
were. -/
theorem redirect_unexpired_counts_one_click (db : Bucket) (now : Time) (shortKey : String)
    (d : URLData) (hget : db.Get shortKey = some d) (hlive : now ≤ d.ExpiresAt)
    (hlo : minInt ≤ d.Clicks) (hhi : d.Clicks < maxInt) :
    (redirectURL db now shortKey).1 = Response.redirect d.OriginalURL 302 ∧
    (redirectURL db now shortKey).2.Get shortKey =
      some { OriginalURL := d.OriginalURL, ExpiresAt := d.ExpiresAt, Clicks := d.Clicks + 1 } ∧
    ∀ other : String, other ≠ shortKey →
      (redirectURL db now shortKey).2.Get other = db.Get other := by
  rw [redirectURL_live db now shortKey d hget hlive, wrapInt_succ d.Clicks hlo hhi]
  refine ⟨rfl, Bucket.Get_Put_same _ _ _, ?_⟩
  intro other hne
  exact Bucket.Get_Put_other _ _ _ _ hne

theorem redirect_unexpired_counts_one_click_witness :
    sampleBucket.Get "aaaaaa" = some sampleRecord ∧ sampleNow ≤ sampleRecord.ExpiresAt ∧
    minInt ≤ sampleRecord.Clicks ∧ sampleRecord.Clicks < maxInt ∧
    (redirectURL sampleBucket sampleNow "aaaaaa").1 =
      Response.redirect "https://example.com/old" 302 ∧
    (redirectURL sampleBucket sampleNow "aaaaaa").2.Get "aaaaaa" =
      some { OriginalURL := "https://example.com/old", ExpiresAt := dateUTC 2099 1 1,
             Clicks := 5 + 1 } ∧
    ∀ other : String, other ≠ "aaaaaa" →
      (redirectURL sampleBucket sampleNow "aaaaaa").2.Get other = sampleBucket.Get other :=
  ⟨by decide, by decide, by decide, by decide,
    redirect_unexpired_counts_one_click sampleBucket sampleNow "aaaaaa" sampleRecord
      (by decide) (by decide) (by decide) (by decide)⟩

/-- C3: a redirect on a key whose record has `expires_at` strictly before the
current time answers "URL has expired" with status 410 and leaves the bucket,
and so the record's clicks, as it was. -/
theorem redirect_expired_gone (db : Bucket) (now : Time) (shortKey : String) (d : URLData)
    (hget : db.Get shortKey = some d) (hexp : d.ExpiresAt < now) :
    redirectURL db now shortKey = (Response.error "URL has expired" 410, db) ∧
    (redirectURL db now shortKey).2.Get shortKey = some d := by
  rw [redirectURL_expired db now shortKey d hget hexp]
  exact ⟨rfl, hget⟩

theorem redirect_expired_gone_witness :
    sampleBucket.Get "promo" =
      some { OriginalURL := "https://example.com/promo", ExpiresAt := dateUTC 2020 1 1,
             Clicks := 3 } ∧
    dateUTC 2020 1 1 < sampleNow ∧
    redirectURL sampleBucket sampleNow "promo" =
      (Response.error "URL has expired" 410, sampleBucket) ∧
    (redirectURL sampleBucket sampleNow "promo").2.Get "promo" =
      some { OriginalURL := "https://example.com/promo", ExpiresAt := dateUTC 2020 1 1,
             Clicks := 3 } :=
  ⟨by decide, by decide,
    redirect_expired_gone sampleBucket sampleNow "promo"
      { OriginalURL := "https://example.com/promo", ExpiresAt := dateUTC 2020 1 1, Clicks := 3 }
      (by decide) (by decide)⟩

/-- C9, as stated, fails: with `expires_at` equal to the current time the
redirect is not refused with the expired error; it answers 302 and counts the
click. -/
theorem redirect_at_expiry_instant_not_gone :
    ¬ (∀ (db : Bucket) (now : Time) (shortKey : String) (d : URLData),
        db.Get shortKey = some d → d.ExpiresAt = now →
        redirectURL db now shortKey = (Response.error "URL has expired" 410, db)) := by
  intro h
  have h1 := h sampleBucket (dateUTC 2099 1 1) "aaaaaa" sampleRecord (by decide) (by decide)
  revert h1
  decide

/-- C9, amended: for a key that holds a record, redirect answers the expired
error exactly when the current time is strictly after `expires_at`; with
`expires_at` equal to the current time it succeeds (302 to the original URL)
and writes the record back with the clicks incremented as a Go `int`: a value
other than the old one, and the old one plus one whenever the old one is an
`int` below the largest. -/
theorem redirect_at_expiry_instant_succeeds (db : Bucket) (now : Time) (shortKey : String)
    (d : URLData) (hget : db.Get shortKey = some d) :
    ((redirectURL db now shortKey).1 = Response.error "URL has expired" 410 ↔
      d.ExpiresAt < now) ∧
    (d.ExpiresAt = now →
      (redirectURL db now shortKey).1 = Response.redirect d.OriginalURL 302 ∧
      (redirectURL db now shortKey).2.Get shortKey =
        some { OriginalURL := d.OriginalURL, ExpiresAt := d.ExpiresAt,
               Clicks := wrapInt (d.Clicks + 1) } ∧
      wrapInt (d.Clicks + 1) ≠ d.Clicks ∧
      (minInt ≤ d.Clicks → d.Clicks < maxInt → wrapInt (d.Clicks + 1) = d.Clicks + 1)) := by
  constructor
  · constructor
    · intro h
      by_contra hlt
      rw [redirectURL_live db now shortKey d hget (not_lt.mp hlt)] at h
      cases h
    · intro h
      rw [redirectURL_expired db now shortKey d hget h]
  · intro heq
    rw [redirectURL_live db now shortKey d hget (le_of_eq heq.symm)]
    exact ⟨rfl, Bucket.Get_Put_same _ _ _, wrapInt_succ_ne _, wrapInt_succ _⟩

theorem redirect_at_expiry_instant_succeeds_witness :
    sampleBucket.Get "aaaaaa" = some sampleRecord ∧
    (((redirectURL sampleBucket (dateUTC 2099 1 1) "aaaaaa").1 =
        Response.error "URL has expired" 410 ↔
      sampleRecord.ExpiresAt < dateUTC 2099 1 1) ∧
    (sampleRecord.ExpiresAt = dateUTC 2099 1 1 →
      (redirectURL sampleBucket (dateUTC 2099 1 1) "aaaaaa").1 =
        Response.redirect sampleRecord.OriginalURL 302 ∧
      (redirectURL sampleBucket (dateUTC 2099 1 1) "aaaaaa").2.Get "aaaaaa" =
        some { OriginalURL := sampleRecord.OriginalURL, ExpiresAt := sampleRecord.ExpiresAt,
               Clicks := wrapInt (sampleRecord.Clicks + 1) } ∧
      wrapInt (sampleRecord.Clicks + 1) ≠ sampleRecord.Clicks ∧
      (minInt ≤ sampleRecord.Clicks → sampleRecord.Clicks < maxInt →
        wrapInt (sampleRecord.Clicks + 1) = sampleRecord.Clicks + 1))) :=
  ⟨by decide,
    redirect_at_expiry_instant_succeeds sampleBucket (dateUTC 2099 1 1) "aaaaaa" sampleRecord
      (by decide)⟩

/-! ## Shorten -/

theorem shortenURL_generated (db : Bucket) (rnd : Nat → Nat) (now : Time) (r : ShortenRequest)
    (hpost : r.Method = "POST") (hurl : r.url ≠ "") (hkey : r.custom_key = "") :
    shortenURL db rnd now r = shortenStore db now r (generateShortKey rnd) := by
  simp [shortenURL, hpost, hurl, hkey]

theorem shortenURL_custom_free (db : Bucket) (rnd : Nat → Nat) (now : Time)
    (r : ShortenRequest) (hpost : r.Method = "POST") (hurl : r.url ≠ "")
    (hkey : r.custom_key ≠ "") (hfree : db.Get r.custom_key = none) :
    shortenURL db rnd now r = shortenStore db now r r.custom_key := by
  simp [shortenURL, hpost, hurl, hkey, hfree]

theorem shortenURL_custom_taken (db : Bucket) (rnd : Nat → Nat) (now : Time)
    (r : ShortenRequest) (d : URLData) (hpost : r.Method = "POST") (hurl : r.url ≠ "")
    (hkey : r.custom_key ≠ "") (htaken : db.Get r.custom_key = some d) :
    shortenURL db rnd now r = (Response.error "Custom key already exists" 400, db) := by
  simp [shortenURL, hpost, hurl, hkey, htaken]

/-- C1: with a non-empty URL, no custom key and no expiration, shorten replies
with a key of exactly 6 characters, each from the 62-symbol alphabet of letters
and digits, and a redirect on that key no later than the default expiry answers
302 to the same URL. -/
theorem shorten_generated_then_redirect (db : Bucket) (rnd : Nat → Nat) (now later : Time)
    (url : String) (hurl : url ≠ "") (hlater : later ≤ now.AddDays 7) :
    (shortenURL db rnd now
        { Method := "POST", url := url, custom_key := "", expiration := "" }).1 =
      Response.written (shortURL (generateShortKey rnd)) ∧
    (generateShortKey rnd).length = 6 ∧
    (∀ c ∈ (generateShortKey rnd).toList, c ∈ base62Chars.toList ∧ c.isAlphanum = true) ∧
    base62Chars.length = 62 ∧
    (redirectURL
        (shortenURL db rnd now
          { Method := "POST", url := url, custom_key := "", expiration := "" }).2
        later (generateShortKey rnd)).1 = Response.redirect url 302 := by
  have hs := shortenURL_generated db rnd now
    { Method := "POST", url := url, custom_key := "", expiration := "" } rfl hurl rfl
  rw [hs, shortenStore_default _ _ _ _ rfl]
  refine ⟨rfl, generateShortKey_length rnd, ?_, base62_card.1, ?_⟩
  · intro c hc
    exact ⟨generateShortKey_mem rnd c hc, base62_alnum c (generateShortKey_mem rnd c hc)⟩
  · have hget := Bucket.Get_Put_same db (generateShortKey rnd)
      { OriginalURL := url, ExpiresAt := now.AddDays 7, Clicks := 0 }
    rw [redirectURL_live _ later _ _ hget hlater]

theorem shorten_generated_then_redirect_witness :
    "https://example.com/new" ≠ "" ∧ sampleNow.AddDays 3 ≤ sampleNow.AddDays 7 ∧
    ((shortenURL sampleBucket (fun i => 7 * i + 30) sampleNow
        { Method := "POST", url := "https://example.com/new", custom_key := "",
          expiration := "" }).1 =
      Response.written (shortURL (generateShortKey (fun i => 7 * i + 30))) ∧
    (generateShortKey (fun i => 7 * i + 30)).length = 6 ∧
    (∀ c ∈ (generateShortKey (fun i => 7 * i + 30)).toList,
      c ∈ base62Chars.toList ∧ c.isAlphanum = true) ∧
    base62Chars.length = 62 ∧
    (redirectURL
        (shortenURL sampleBucket (fun i => 7 * i + 30) sampleNow
          { Method := "POST", url := "https://example.com/new", custom_key := "",
            expiration := "" }).2
        (sampleNow.AddDays 3) (generateShortKey (fun i => 7 * i + 30))).1 =
      Response.redirect "https://example.com/new" 302) :=
  ⟨by decide, by decide,
    shorten_generated_then_redirect sampleBucket (fun i => 7 * i + 30) sampleNow
      (sampleNow.AddDays 3) "https://example.com/new" (by decide) (by decide)⟩

/-- C4: with a non-empty URL and a supplied custom key that already has a record,
shorten answers "Custom key already exists" with status 400 and the bucket after
the call is the bucket before it. -/
theorem shorten_taken_custom_key_conflict (db : Bucket) (rnd : Nat → Nat) (now : Time)
    (url customKey expiration : String) (d : URLData) (hurl : url ≠ "")
    (hkey : customKey ≠ "") (htaken : db.Get customKey = some d) :
    shortenURL db rnd now
        { Method := "POST", url := url, custom_key := customKey, expiration := expiration } =
      (Response.error "Custom key already exists" 400, db) ∧
    (shortenURL db rnd now
        { Method := "POST", url := url, custom_key := customKey,
          expiration := expiration }).2.Get customKey = some d := by
  have hs := shortenURL_custom_taken db rnd now
    { Method := "POST", url := url, custom_key := customKey, expiration := expiration } d
    rfl hurl hkey htaken
  rw [hs]
  exact ⟨rfl, htaken⟩

theorem shorten_taken_custom_key_conflict_witness :
    "https://example.com/new" ≠ "" ∧ "aaaaaa" ≠ "" ∧
    sampleBucket.Get "aaaaaa" = some sampleRecord ∧
    (shortenURL sampleBucket (fun _ => 0) sampleNow
        { Method := "POST", url := "https://example.com/new", custom_key := "aaaaaa",
          expiration := "2099-01-01" } =
      (Response.error "Custom key already exists" 400, sampleBucket) ∧
    (shortenURL sampleBucket (fun _ => 0) sampleNow
        { Method := "POST", url := "https://example.com/new", custom_key := "aaaaaa",
          expiration := "2099-01-01" }).2.Get "aaaaaa" = some sampleRecord) :=
  ⟨by decide, by decide, by decide,
    shorten_taken_custom_key_conflict sampleBucket (fun _ => 0) sampleNow
      "https://example.com/new" "aaaaaa" "2099-01-01" sampleRecord
      (by decide) (by decide) (by decide)⟩

/-- C7: when no expiration is supplied and shorten succeeds with the short URL of
`key`, the record stored under `key` has the submitted URL, zero clicks and
`expires_at` seven days after the current time of the call; `key` is the
generated key, or the supplied custom key, which was free. -/
theorem shorten_default_record (db : Bucket) (rnd : Nat → Nat) (now : Time)
    (r : ShortenRequest) (key : String) (hexp : r.expiration = "")
    (hok : (shortenURL db rnd now r).1 = Response.written (shortURL key)) :
    (shortenURL db rnd now r).2.Get key =
      some { OriginalURL := r.url, ExpiresAt := now + 7 * nanosPerDay, Clicks := 0 } ∧
    (r.custom_key = "" → key = generateShortKey rnd) ∧
    (r.custom_key ≠ "" → key = r.custom_key ∧ db.Get key = none) := by
  by_cases hpost : r.Method = "POST"
  swap
  · simp [shortenURL, hpost] at hok
  by_cases hurl : r.url = ""
  · simp [shortenURL, hpost, hurl] at hok
  by_cases hkey : r.custom_key = ""
  · rw [shortenURL_generated db rnd now r hpost hurl hkey,
      shortenStore_default _ _ _ _ hexp] at hok ⊢
    have hk : key = generateShortKey rnd :=
      (shortURL_injective _ _ (Response.written.inj hok)).symm
    subst hk
    exact ⟨Bucket.Get_Put_same _ _ _, fun _ => rfl, fun h => absurd hkey h⟩
  · cases hg : db.Get r.custom_key with
    | some d =>
      rw [shortenURL_custom_taken db rnd now r d hpost hurl hkey hg] at hok
      cases hok
    | none =>
      rw [shortenURL_custom_free db rnd now r hpost hurl hkey hg,
        shortenStore_default _ _ _ _ hexp] at hok ⊢
      have hk : key = r.custom_key :=
        (shortURL_injective _ _ (Response.written.inj hok)).symm
      subst hk
      exact ⟨Bucket.Get_Put_same _ _ _, fun h => absurd h hkey, fun _ => ⟨rfl, hg⟩⟩

theorem shorten_default_record_witness :
    sampleFreshRequest.expiration = "" ∧
    (shortenURL sampleBucket (fun _ => 0) sampleNow sampleFreshRequest).1 =
      Response.written (shortURL "fresh") ∧
    ((shortenURL sampleBucket (fun _ => 0) sampleNow sampleFreshRequest).2.Get "fresh" =
      some { OriginalURL := sampleFreshRequest.url,
             ExpiresAt := sampleNow + 7 * nanosPerDay, Clicks := 0 } ∧
    (sampleFreshRequest.custom_key = "" → "fresh" = generateShortKey (fun _ => 0)) ∧
    (sampleFreshRequest.custom_key ≠ "" →
      "fresh" = sampleFreshRequest.custom_key ∧ sampleBucket.Get "fresh" = none)) :=
  ⟨by decide, by decide,
    shorten_default_record sampleBucket (fun _ => 0) sampleNow sampleFreshRequest "fresh"
      (by decide) (by decide)⟩

/-- C8, as stated, fails: a POST with a non-empty URL and an expiration that does
not parse is not always answered with the invalid-date error; when the supplied
custom key is taken the reply is the key-conflict error. -/
theorem shorten_bad_date_not_always_invalid_date :
    ¬ (∀ (db : Bucket) (rnd : Nat → Nat) (now : Time) (r : ShortenRequest),
        r.Method = "POST" →
        (r.url = "" → shortenURL db rnd now r = (Response.error "URL is required" 400, db)) ∧
        (r.url ≠ "" → r.expiration ≠ "" → parseDate r.expiration = none →
          shortenURL db rnd now r =
            (Response.error "Invalid date format (YYYY-MM-DD)" 400, db))) := by
  intro h
  have h1 := (h sampleBucket (fun _ => 0) sampleNow sampleTakenBadDateRequest (by decide)).2
    (by decide) (by decide) (by decide)
  revert h1
  decide

/-- C8, amended: a POST shorten with an empty URL answers "URL is required" (400);
with a non-empty URL and a non-empty expiration that does not parse it answers
400 with the invalid-date error, or with the key-conflict error when a supplied
custom key already has a record; in each case the bucket after the call is the
bucket before it. -/
theorem shorten_invalid_input_leaves_bucket (db : Bucket) (rnd : Nat → Nat) (now : Time)
    (r : ShortenRequest) (hpost : r.Method = "POST") :
    (r.url = "" → shortenURL db rnd now r = (Response.error "URL is required" 400, db)) ∧
    (r.url ≠ "" → r.expiration ≠ "" → parseDate r.expiration = none →
      shortenURL db rnd now r =
        (Response.error
          (if r.custom_key ≠ "" ∧ (db.Get r.custom_key).isSome = true
            then "Custom key already exists" else "Invalid date format (YYYY-MM-DD)") 400,
         db)) := by
  constructor
  · intro hurl
    simp [shortenURL, hpost, hurl]
  · intro hurl hne hparse
    by_cases hkey : r.custom_key = ""
    · rw [shortenURL_generated db rnd now r hpost hurl hkey,
        shortenStore_bad_date _ _ _ _ hne hparse]
      simp [hkey]
    · cases hg : db.Get r.custom_key with
      | some d =>
        rw [shortenURL_custom_taken db rnd now r d hpost hurl hkey hg]
        simp [hkey]
      | none =>
        rw [shortenURL_custom_free db rnd now r hpost hurl hkey hg,
          shortenStore_bad_date _ _ _ _ hne hparse]
        simp

theorem shorten_invalid_input_leaves_bucket_witness :
    sampleBadDateRequest.Method = "POST" ∧
    ((sampleBadDateRequest.url = "" →
      shortenURL sampleBucket (fun _ => 0) sampleNow sampleBadDateRequest =
        (Response.error "URL is required" 400, sampleBucket)) ∧
    (sampleBadDateRequest.url ≠ "" → sampleBadDateRequest.expiration ≠ "" →
      parseDate sampleBadDateRequest.expiration = none →
      shortenURL sampleBucket (fun _ => 0) sampleNow sampleBadDateRequest =
        (Response.error
          (if sampleBadDateRequest.custom_key ≠ "" ∧
              (sampleBucket.Get sampleBadDateRequest.custom_key).isSome = true
            then "Custom key already exists" else "Invalid date format (YYYY-MM-DD)") 400,
         sampleBucket))) :=
  ⟨by decide,
    shorten_invalid_input_leaves_bucket sampleBucket (fun _ => 0) sampleNow
      sampleBadDateRequest (by decide)⟩

/-! ## Where the code departs from the claims -/

theorem shorten_parsed_expiration_stores_zero_time (db : Bucket) (rnd : Nat → Nat)
    (now later t : Time) (r : ShortenRequest) (hpost : r.Method = "POST") (hurl : r.url ≠ "")
    (hkey : r.custom_key = "") (hne : r.expiration ≠ "")
    (hparse : parseDate r.expiration = some t) (hlater : zeroTime < later) :
    (shortenURL db rnd now r).2.Get (generateShortKey rnd) =
      some { OriginalURL := r.url, ExpiresAt := zeroTime, Clicks := 0 } ∧
    (redirectURL (shortenURL db rnd now r).2 later (generateShortKey rnd)).1 =
      Response.error "URL has expired" 410 := by
  rw [shortenURL_generated db rnd now r hpost hurl hkey,
    shortenStore_parsed _ _ _ _ t hne hparse]
  have hget := Bucket.Get_Put_same db (generateShortKey rnd)
    { OriginalURL := r.url, ExpiresAt := zeroTime, Clicks := 0 }
  refine ⟨hget, ?_⟩
  rw [redirectURL_expired _ later _ _ hget hlater]

/-- C6 on the code: a POST with expiration "2099-01-01", which parses to that
date, stores a record whose `expires_at` is `time.Time{}` and not the parsed
date, and a redirect on the returned key on 2026-11-01, before 2099-01-01, is
answered "URL has expired" with status 410. -/
theorem shorten_parsed_expiration_discarded :
    parseDate sampleDatedRequest.expiration = some (dateUTC 2099 1 1) ∧
    shortenURL [] (fun _ => 0) sampleNow sampleDatedRequest =
      (Response.written (shortURL "aaaaaa"),
        [("aaaaaa", { OriginalURL := "https://example.com/new", ExpiresAt := zeroTime,
                      Clicks := 0 })]) ∧
    zeroTime ≠ dateUTC 2099 1 1 ∧
    sampleNow < dateUTC 2099 1 1 ∧
    redirectURL (shortenURL [] (fun _ => 0) sampleNow sampleDatedRequest).2 sampleNow "aaaaaa" =
      (Response.error "URL has expired" 410,
        (shortenURL [] (fun _ => 0) sampleNow sampleDatedRequest).2) := by
  decide

theorem shorten_generated_key_ignores_bucket (db : Bucket) (rnd : Nat → Nat) (now : Time)
    (r : ShortenRequest) (hpost : r.Method = "POST") (hurl : r.url ≠ "")
    (hkey : r.custom_key = "") (hexp : r.expiration = "") :
    (shortenURL db rnd now r).1 = Response.written (shortURL (generateShortKey rnd)) ∧
    (shortenURL db rnd now r).2.Get (generateShortKey rnd) =
      some { OriginalURL := r.url, ExpiresAt := now.AddDays 7, Clicks := 0 } := by
  rw [shortenURL_generated db rnd now r hpost hurl hkey, shortenStore_default _ _ _ _ hexp]
  exact ⟨rfl, Bucket.Get_Put_same _ _ _⟩

/-- C5 on the code: the bucket holds a record under "aaaaaa", the key that the
draws generate; shorten with no custom key succeeds, returns that key, and the
record that was there is replaced by the new one. -/
theorem shorten_generated_key_overwrites :
    generateShortKey (fun _ => 0) = "aaaaaa" ∧
    sampleBucket.Get "aaaaaa" = some sampleRecord ∧
    (shortenURL sampleBucket (fun _ => 0) sampleNow samplePlainRequest).1 =
      Response.written (shortURL "aaaaaa") ∧
    (shortenURL sampleBucket (fun _ => 0) sampleNow samplePlainRequest).2.Get "aaaaaa" =
      some { OriginalURL := "https://example.com/new", ExpiresAt := sampleNow.AddDays 7,
             Clicks := 0 } ∧
    (shortenURL sampleBucket (fun _ => 0) sampleNow samplePlainRequest).2.Get "aaaaaa" ≠
      sampleBucket.Get "aaaaaa" := by
  decide

/-! ## Redirects side by side -/

theorem Goroutine.step_twice (db : Bucket) (now : Time) (shortKey : String) :
    (Goroutine.step (Goroutine.step db now shortKey Goroutine.start).2 now shortKey
        (Goroutine.step db now shortKey Goroutine.start).1) =
      (Goroutine.finished (redirectURL db now shortKey).1, (redirectURL db now shortKey).2) := by
  cases h : db.Get shortKey with
  | none => simp [Goroutine.step, redirectURL, redirectView, h]
  | some d => simp [Goroutine.step, redirectURL, redirectView, h]

theorem redirectTimes_clicks (now : Time) (shortKey : String) (n : Nat) :
    ∀ (db : Bucket) (d : URLData), db.Get shortKey = some d → now ≤ d.ExpiresAt →
      minInt ≤ d.Clicks → d.Clicks + n ≤ maxInt →
      (redirectTimes now shortKey n db).Get shortKey =
        some { d with Clicks := d.Clicks + n } := by
  induction n with
  | zero =>
    intro db d hget _ _ _
    simp [redirectTimes, hget]
  | succ n ih =>
    intro db d hget hlive hlo hhi
    have hlt : d.Clicks < maxInt := by push_cast at hhi; omega
    rw [redirectTimes, redirectURL_live db now shortKey d hget hlive,
      wrapInt_succ d.Clicks hlo hlt]
    rw [ih _ { d with Clicks := d.Clicks + 1 } (Bucket.Get_Put_same _ _ _) hlive
      (by show minInt ≤ d.Clicks + 1; omega)
      (by show d.Clicks + 1 + (n : Int) ≤ maxInt; push_cast at hhi; omega)]
    simp only [Nat.cast_add, Nat.cast_one, Option.some.injEq, URLData.mk.injEq, true_and]
    ring

/-- C10 on the code: two redirects on an unexpired key whose transactions
interleave as read, read, write, write both answer 302, yet the clicks go from
5 to 6 and not to 7; the same two redirects run one after the other give 7. -/
theorem concurrent_redirects_lose_a_click :
    sampleBucket.Get "aaaaaa" = some sampleRecord ∧ sampleRecord.Clicks = 5 ∧
    sampleNow ≤ sampleRecord.ExpiresAt ∧
    (runSchedule "aaaaaa" [(0, sampleNow), (1, sampleNow), (0, sampleNow), (1, sampleNow)]
        ([Goroutine.start, Goroutine.start], sampleBucket)).1 =
      [Goroutine.finished (Response.redirect "https://example.com/old" 302),
       Goroutine.finished (Response.redirect "https://example.com/old" 302)] ∧
    ((runSchedule "aaaaaa" [(0, sampleNow), (1, sampleNow), (0, sampleNow), (1, sampleNow)]
        ([Goroutine.start, Goroutine.start], sampleBucket)).2.Get "aaaaaa").map URLData.Clicks =
      some 6 ∧
    ((runSchedule "aaaaaa" [(0, sampleNow), (0, sampleNow), (1, sampleNow), (1, sampleNow)]
        ([Goroutine.start, Goroutine.start], sampleBucket)).2.Get "aaaaaa").map URLData.Clicks =
      some 7 := by
  decide

end URLShortener
